import Mathlib

/-!
Shallow embedding of `src/scripts/vibe_benchmark.py` (the Marin vibe benchmark).

The embedding translates the benchmark core — the battle cache and its
fingerprint-validated load, the key-rotation request loop, the battle
decision procedure `run_battle`, the judge-reply parsing, the battle
statistics aggregation and the Elo fold of `run_benchmark` — into pure
Lean functions.  Machine floats are modelled as exact rationals (for the
length heuristic) and reals (for the Elo updates, which use a real
exponential).  Effectful pieces are modelled by explicit parameters:

* the per-process Python string hash (randomised across runs by
  `PYTHONHASHSEED`) becomes an explicit argument `pyhash : String → Int`;
* the network outcome of one request attempt with a given key becomes an
  oracle `attempt : String → Outcome`;
* the outcome of `re.search` + `json.loads` + field extraction on the
  free-form judge reply becomes a `ParseOutcome` argument, while the final
  winner-string canonicalisation is modelled concretely;
* the SHA-256 12-hex-digit fingerprint becomes an abstract
  `fingerprint : String → String` argument.
-/

/-- Sentinel text returned by `query_model_async` when every API key has been
tried without an HTTP 200 (line 540 of the source). -/
def allKeysFailedText : String := "Error: All keys failed"

/-- One entry of `KeyManager.keys`: an API key with its failure counter
(`KeyState`, lines 386-391).  `last_used` / `last_success` timestamps are
never read by any modelled code path and are omitted. -/
structure KeyState where
  key : String
  failure_count : Nat
deriving DecidableEq

/-- First minimum of a non-empty list by `failure_count`, as Python's
`min(candidates, key=lambda k: k.failure_count)` returns the first element
attaining the minimum. -/
def minByFailure : KeyState → List KeyState → KeyState
  | best, [] => best
  | best, k :: ks =>
      minByFailure (if k.failure_count < best.failure_count then k else best) ks

/-- `KeyManager.get_best_key` (lines 405-416): among keys whose key string is
not excluded, the one with the fewest failures; `none` when the pool is empty
or fully excluded. -/
def get_best_key (keys : List KeyState) (exclude : List String) : Option String :=
  match keys.filter (fun k => !(exclude.contains k.key)) with
  | [] => none
  | c :: cs => some (minByFailure c cs).key

/-- `KeyManager.record_failure` (lines 426-431): increment the failure count of
the first key matching the given string (Python `break`s after the first). -/
def record_failure : List KeyState → String → List KeyState
  | [], _ => []
  | k :: ks, s =>
      if k.key = s then { k with failure_count := k.failure_count + 1 } :: ks
      else k :: record_failure ks s

/-- Result of one HTTP attempt with one key, as observed by the retry loop of
`query_model_async` (lines 514-538): HTTP 200 with extracted content, elapsed
time and usage; HTTP 429; another non-200 status; or a raised exception. -/
inductive Outcome where
  | success (content : String) (elapsed : ℚ) (usage : List (String × Nat))
  | rateLimit
  | httpFailure
  | exc
deriving DecidableEq

/-- The credential-rotation loop of `query_model_async` (lines 497-540).
`strip` models the `<think>`-tag regex normalisation applied to successful
content; `attempt` gives the outcome of the single attempt made with a key
(each key is tried at most once per call, so one outcome per key suffices);
`tried` is the `tried_keys` set; the fuel starts at the pool size, which
bounds the number of iterations because every iteration adds one fresh key
to `tried`. -/
def queryLoop (strip : String → String) (attempt : String → Outcome) :
    Nat → List KeyState → List String → String × ℚ × List (String × Nat)
  | 0, _, _ => (allKeysFailedText, 0, [])
  | fuel + 1, keys, tried =>
      if tried.length < keys.length then
        match get_best_key keys tried with
        | none => (allKeysFailedText, 0, [])
        | some key =>
            match attempt key with
            | .success content elapsed usage => (strip content, elapsed, usage)
            | _ => queryLoop strip attempt fuel (record_failure keys key) (key :: tried)
      else (allKeysFailedText, 0, [])

/-- `query_model_async` (lines 485-540) as a function of the attempt oracle
and the initial key pool. -/
def query_model_async (strip : String → String) (attempt : String → Outcome)
    (keys : List KeyState) : String × ℚ × List (String × Nat) :=
  queryLoop strip attempt keys.length keys []

/-- `sorted([model_a, model_b])` on a two-element list (line 355). -/
def sortPair (a b : String) : String × String := if a ≤ b then (a, b) else (b, a)

/-- `BattleCache._make_key` (lines 353-356): judge, the two model ids in
ascending order, and the category, joined by `::`. -/
def make_key (judge_id model_a model_b category : String) : String :=
  let p := sortPair model_a model_b
  judge_id ++ "::" ++ p.1 ++ "::" ++ p.2 ++ "::" ++ category

/-- `BattleCache.get` (lines 358-361) over an association-list model of the
cache dictionary. -/
def battleCacheGet (cache : List (String × String)) (judge_id model_a model_b category : String) :
    Option String :=
  cache.lookup (make_key judge_id model_a model_b category)

/-- `BattleCache.set` (lines 363-374): store the winner under the canonical
key.  Consing is observationally the dictionary overwrite, since `lookup`
returns the most recent binding. -/
def battleCacheSet (cache : List (String × String))
    (judge_id model_a model_b category winner : String) : List (String × String) :=
  (make_key judge_id model_a model_b category, winner) :: cache

/-- The concrete model denoted by a stored `"model_a"` / `"model_b"` winner
label, as interpreted by the aggregation in `run_benchmark` (lines 756-762):
`"model_a"` credits the first returned model id, anything else the second. -/
def concreteWinner (model_a model_b winner : String) : String :=
  if winner = "model_a" then model_a else model_b

/-- Python's whitespace test for the characters `str.strip()` removes,
restricted to the ASCII whitespace relevant for judge replies. -/
def isPyWhitespace (c : Char) : Bool := c.isWhitespace

/-- `str.strip()` on the character list: drop whitespace from both ends. -/
def pyStripChars (l : List Char) : List Char :=
  ((l.dropWhile isPyWhitespace).reverse.dropWhile isPyWhitespace).reverse

/-- `str.upper()` on the character list. -/
def pyUpperChars (l : List Char) : List Char := l.map Char.toUpper

/-- Canonicalisation of an extracted winner string (lines 736-738):
`w.strip().upper()` contains the letter `B` (Python `"B" in w_str`) gives
model B, anything else gives model A. -/
def winnerFromString (w : String) : String :=
  if 'B' ∈ pyUpperChars (pyStripChars w.data) then "model_b" else "model_a"

/-- Observable outcome of `re.search(r'\x7b.*\x7d', …)` + `json.loads` +
`d.get("winner", "A")` on the free-form judge reply (lines 732-740): no JSON
object found; found text fails to parse; parsed object lacks a `winner`
field (Python defaults it to `"A"`); `winner` present but not a string (so
`.strip()` raises and the `except` keeps the fallback); or a winner string. -/
inductive ParseOutcome where
  | noJson
  | parseError
  | objNoWinner
  | winnerNotString
  | winnerStr (w : String)
deriving DecidableEq

/-- The verdict produced from a judge reply by the parse block of
`run_battle` (lines 730-740): the fallback `"model_a"` on every failure,
the default field value `"A"` when the field is missing, and the
canonicalised winner string otherwise. -/
def judgeVerdict : ParseOutcome → String
  | .noJson => "model_a"
  | .parseError => "model_a"
  | .objNoWinner => winnerFromString "A"
  | .winnerNotString => "model_a"
  | .winnerStr w => winnerFromString w

/-- Insert a string into a `≤`-sorted list of strings. -/
def insertSorted (q : String) : List String → List String
  | [] => [q]
  | x :: xs => if q ≤ x then q :: x :: xs else x :: insertSorted q xs

/-- Insertion sort on strings, modelling Python's `sorted` on a list of
question strings. -/
def sortStrings : List String → List String
  | [] => []
  | x :: xs => insertSorted x (sortStrings xs)

/-- `sorted(list(set(res_a_map.keys()) & set(res_b_map.keys())))[:5]`
(line 695): the lexicographically first five common questions of the two
response maps. -/
def commonQuestions (resA resB : List (String × String)) : List String :=
  (sortStrings (((resA.map Prod.fst).filter
      (fun q => (resB.map Prod.fst).contains q)).dedup)).take 5

/-- Average response length over the common questions (lines 704-705), in
exact rational arithmetic: `sum(len(res_map[q]) for q in common) / len(common)`. -/
def avgLen (resMap : List (String × String)) (common : List String) : ℚ :=
  ((common.map (fun q => (((resMap.lookup q).getD "").length : ℚ))).sum) / common.length

/-- The no-common-questions fallback of `run_battle` (line 700):
`"model_a" if hash(model_a + model_b + category) % 2 == 0 else "model_b"`,
with the per-process Python string hash passed explicitly. -/
def noCommonWinner (pyhash : String → Int) (model_a model_b category : String) : String :=
  if pyhash (model_a ++ model_b ++ category) % 2 = 0 then "model_a" else "model_b"

/-- What a battle task returns together with the battle cache it leaves
behind; `judgeCalled` records whether the LLM-as-judge request (line 728)
was issued. -/
structure BattleResult where
  winner : String
  cache : List (String × String)
  judgeCalled : Bool
deriving DecidableEq

/-- `run_battle` (lines 678-744) as a pure function: cache lookup first, then
the no-common-questions hash fallback (returned without touching the cache),
then the 160-character length heuristic, then the LLM judge whose reply's
parse outcome is the `parse` argument; every verdict except the
no-common-questions fallback is stored in the cache before returning.
`resA`/`resB` are the category-filtered question-to-response maps
`res_a_map`/`res_b_map`. -/
def run_battle (pyhash : String → Int) (parse : ParseOutcome)
    (cache : List (String × String)) (judge_id model_a model_b category : String)
    (resA resB : List (String × String)) : BattleResult :=
  match battleCacheGet cache judge_id model_a model_b category with
  | some w => ⟨w, cache, false⟩
  | none =>
      let common := commonQuestions resA resB
      if common.isEmpty then
        ⟨noCommonWinner pyhash model_a model_b category, cache, false⟩
      else
        let len_a := avgLen resA common
        let len_b := avgLen resB common
        if 160 < len_a ∧ 160 < len_b then
          let w := if len_a < len_b then "model_a" else "model_b"
          ⟨w, battleCacheSet cache judge_id model_a model_b category w, false⟩
        else if 160 < len_a then
          ⟨"model_b", battleCacheSet cache judge_id model_a model_b category "model_b", false⟩
        else if 160 < len_b then
          ⟨"model_a", battleCacheSet cache judge_id model_a model_b category "model_a", false⟩
        else
          let w := judgeVerdict parse
          ⟨w, battleCacheSet cache judge_id model_a model_b category w, true⟩

/-- Increment the win counter of one model in the `battle_stats` table
(`stats m = (wins, losses)`). -/
def bumpWin (stats : String → Nat × Nat) (m : String) : String → Nat × Nat :=
  fun x => if x = m then ((stats m).1 + 1, (stats m).2) else stats x

/-- Increment the loss counter of one model in the `battle_stats` table. -/
def bumpLoss (stats : String → Nat × Nat) (m : String) : String → Nat × Nat :=
  fun x => if x = m then ((stats m).1, (stats m).2 + 1) else stats x

/-- The `battle_stats` aggregation of one battle result in `run_benchmark`
(lines 756-762): a `"model_a"` winner label credits a win to the first model
and a loss to the second, any other label the reverse. -/
def battleStatsStep (stats : String → Nat × Nat) (model_a model_b winner : String) :
    String → Nat × Nat :=
  if winner = "model_a" then bumpLoss (bumpWin stats model_a) model_b
  else bumpLoss (bumpWin stats model_b) model_a

/-- The shared load logic of `ResponseCache._load` (lines 242-256) and
`BattleCache._load` (lines 324-337): `fileData = none` models a missing or
unparsable cache file (the bare `except` resets to `\x7b\x7d`), otherwise the
stored fingerprint field (`none` when absent) is compared with the expected
fingerprint; on a match all persisted entries are adopted, on a mismatch the
in-memory cache starts empty. -/
def cacheLoadEntries {α : Type} (fileData : Option (Option String × List (String × α)))
    (expected : String) : List (String × α) :=
  match fileData with
  | none => []
  | some (storedHash, entries) => if storedHash = some expected then entries else []

/-- `ResponseCache._load`: the expected fingerprint is the fingerprint of the
active persona text (`hashlib.sha256(SYSTEM_PROMPT…)[:12]`, line 249),
with the fingerprint function passed abstractly. -/
def responseCacheLoad {α : Type} (fingerprint : String → String) (personaText : String)
    (fileData : Option (Option String × List (String × α))) : List (String × α) :=
  cacheLoadEntries fileData (fingerprint personaText)

/-- `BattleCache._load`: the expected fingerprint is the fingerprint of the
persona text concatenated with the judging-rubric text
(`SYSTEM_PROMPT + JUDGE_BATTLE_PROMPT`, line 326). -/
def battleCacheLoad {α : Type} (fingerprint : String → String)
    (personaText rubricText : String)
    (fileData : Option (Option String × List (String × α))) : List (String × α) :=
  cacheLoadEntries fileData (fingerprint (personaText ++ rubricText))

/-- One battle verdict as consumed by the Elo fold of `run_benchmark`: the
two model ids of the task, the winner label (`"model_a"` / `"model_b"`),
and the category. -/
structure Verdict where
  model_a : String
  model_b : String
  winner : String
  category : String
deriving DecidableEq

/-- Point update of a rating table, modelling `elo_ratings[m] = x`. -/
def updateRating (r : String → ℝ) (m : String) (x : ℝ) : String → ℝ :=
  fun k => if k = m then x else r k

/-- One iteration of the global Elo loop of `run_benchmark`
(lines 777-788): both expected scores are computed directly from the
logistic formula, the actual score is 1.0 for a `"model_a"` winner label and
0.0 otherwise with `score_b = 1.0 - score_a`, and both ratings are updated
with K = 32, reading both old ratings before writing. -/
noncomputable def eloStep (r : String → ℝ) (v : Verdict) : String → ℝ :=
  let rating_a := r v.model_a
  let rating_b := r v.model_b
  let expected_a := 1 / (1 + (10 : ℝ) ^ ((rating_b - rating_a) / 400))
  let expected_b := 1 / (1 + (10 : ℝ) ^ ((rating_a - rating_b) / 400))
  let score_a : ℝ := if v.winner = "model_a" then 1 else 0
  let score_b : ℝ := 1 - score_a
  updateRating (updateRating r v.model_a (rating_a + 32 * (score_a - expected_a)))
    v.model_b (rating_b + 32 * (score_b - expected_b))

/-- The global Elo fold (lines 773-788): every model starts at the initial
rating 1000 and the verdicts are folded in sequence order. -/
noncomputable def eloFold (vs : List Verdict) : String → ℝ :=
  vs.foldl eloStep (fun _ => 1000)

/-- Elo update step as the spec words it (section 4.5): `E_a` from the
logistic formula, `E_b = 1 - E_a`, actual score 1.0 for the winner and 0.0
for the loser on each side, `R += 32 * (actual - expected)`. -/
noncomputable def eloSpecStep (r : String → ℝ) (v : Verdict) : String → ℝ :=
  let e_a := 1 / (1 + (10 : ℝ) ^ ((r v.model_b - r v.model_a) / 400))
  let e_b := 1 - e_a
  let s_a : ℝ := if v.winner = "model_a" then 1 else 0
  let s_b : ℝ := if v.winner = "model_b" then 1 else 0
  updateRating (updateRating r v.model_a (r v.model_a + 32 * (s_a - e_a)))
    v.model_b (r v.model_b + 32 * (s_b - e_b))

/-- The Elo fold as the spec words it: initial rating 1000, spec update step
in sequence order. -/
noncomputable def eloSpecFold (vs : List Verdict) : String → ℝ :=
  vs.foldl eloSpecStep (fun _ => 1000)

/-- One iteration of the per-category Elo loop of `run_benchmark`
(lines 793-807): a verdict whose category has no table is skipped
(`continue`), otherwise the table of the verdict's category receives the
same Elo update as the global loop. -/
noncomputable def catStep (cats : List String) (T : String → String → ℝ) (v : Verdict) :
    String → String → ℝ :=
  if v.category ∈ cats then
    fun c => if c = v.category then eloStep (T c) v else T c
  else T

/-- The per-category Elo fold (lines 791-807): one table per category in
`cats` (every model starting at 1000.0), folded over the verdicts in
sequence order. -/
noncomputable def catFold (cats : List String) (vs : List Verdict) :
    String → String → ℝ :=
  vs.foldl (catStep cats) (fun _ _ => 1000)

theorem mem_of_lookup_eq_some {l : List (String × String)} {k w : String}
    (h : l.lookup k = some w) : (k, w) ∈ l := by
  induction l with
  | nil => simp [List.lookup] at h
  | cons p rest ih =>
      obtain ⟨k1, w1⟩ := p
      by_cases hk : k = k1
      · subst hk
        simp [List.lookup] at h
        subst h
        exact List.mem_cons_self _ _
      · rw [List.lookup, beq_false_of_ne hk] at h
        exact List.mem_cons_of_mem _ (ih h)

theorem battleCacheGet_set (cache : List (String × String)) (j a b cat w : String) :
    battleCacheGet (battleCacheSet cache j a b cat w) j a b cat = some w := by
  simp [battleCacheGet, battleCacheSet, List.lookup]

theorem judgeVerdict_two_valued (p : ParseOutcome) :
    judgeVerdict p = "model_a" ∨ judgeVerdict p = "model_b" := by
  cases p with
  | noJson => exact Or.inl rfl
  | parseError => exact Or.inl rfl
  | winnerNotString => exact Or.inl rfl
  | objNoWinner => exact Or.inl (by decide)
  | winnerStr w =>
      by_cases hb : 'B' ∈ pyUpperChars (pyStripChars w.data)
      · exact Or.inr (by simp [judgeVerdict, winnerFromString, hb])
      · exact Or.inl (by simp [judgeVerdict, winnerFromString, hb])

/-- C5: if every credential in the pool is tried without an HTTP success
(each credential tried at most once per call), `query_model_async` returns
the sentinel triple — failure text, zero elapsed time, empty usage — and no
exception propagates (the model is a total function). -/
theorem query_model_async_all_fail (strip : String → String) (attempt : String → Outcome)
    (keys : List KeyState) (h : ∀ k c e u, attempt k ≠ Outcome.success c e u) :
    query_model_async strip attempt keys = (allKeysFailedText, 0, []) := by
  suffices hl : ∀ (fuel : Nat) (ks : List KeyState) (tried : List String),
      queryLoop strip attempt fuel ks tried = (allKeysFailedText, 0, []) from
    hl keys.length keys []
  intro fuel
  induction fuel with
  | zero => intro ks tried; rfl
  | succ n ih =>
      intro ks tried
      rw [queryLoop]
      split
      · split
        · rfl
        · split
          · exact absurd (by assumption) (h _ _ _ _)
          · exact ih _ _
      · rfl

theorem query_model_async_all_fail_witness :
    (∀ k c e u, (fun _ : String => Outcome.rateLimit) k ≠ Outcome.success c e u) ∧
    query_model_async id (fun _ : String => Outcome.rateLimit)
        ([⟨"key1", 0⟩] : List KeyState) = (allKeysFailedText, 0, []) := by
  constructor
  · intro k c e u hc
    exact Outcome.noConfusion hc
  · exact query_model_async_all_fail id (fun _ => Outcome.rateLimit) [⟨"key1", 0⟩]
      (by intro k c e u hc; exact Outcome.noConfusion hc)

theorem sortPair_comm (a b : String) : sortPair a b = sortPair b a := by
  unfold sortPair
  rcases le_or_lt a b with h | h
  · rcases eq_or_lt_of_le h with rfl | hlt
    · simp
    · rw [if_pos h, if_neg (not_le.mpr hlt)]
  · rw [if_neg (not_le.mpr h), if_pos h.le]

/-- C2 (amended part): the battle-cache key is order-invariant in the two
model ids, so `decide(A,B,cat)` and `decide(B,A,cat)` address the same
cache entry for the same judge. -/
theorem make_key_order_invariant (j a b c : String) :
    make_key j a b c = make_key j b a c := by
  unfold make_key
  rw [sortPair_comm]

/-- C2 (counterexample part): a verdict stored by `decide("modelX","modelY",…)`
is hit by the swapped lookup, but the stored `"model_a"` label is returned
verbatim, and the aggregation of `run_benchmark` then credits the swapped
call's first argument — a different concrete model than the one the label
denoted when it was stored. -/
theorem battle_cache_swap_counterexample :
    battleCacheGet [(make_key "judge1" "modelX" "modelY" "chat", "model_a")]
        "judge1" "modelY" "modelX" "chat" = some "model_a" ∧
    concreteWinner "modelX" "modelY" "model_a" = "modelX" ∧
    concreteWinner "modelY" "modelX" "model_a" = "modelY" := by
  refine ⟨?_, by decide, by decide⟩
  have hk : make_key "judge1" "modelY" "modelX" "chat" =
      make_key "judge1" "modelX" "modelY" "chat" := by
    unfold make_key
    rw [sortPair_comm]
  rw [battleCacheGet, hk]
  simp [List.lookup]

/-- C3 (counterexample part): a battle whose two response sets share no
common question produces a verdict through the hash fallback but returns
with the battle cache unchanged — the fallback verdict is not persisted. -/
theorem no_common_fallback_not_persisted :
    run_battle (fun _ => 0) ParseOutcome.noJson [] "judge1" "modelX" "modelY" "greetings"
        [("q1", "hi")] [("q2", "yo")] =
      ⟨"model_a", [], false⟩ ∧
    battleCacheGet (run_battle (fun _ => 0) ParseOutcome.noJson [] "judge1" "modelX" "modelY"
        "greetings" [("q1", "hi")] [("q2", "yo")]).cache
      "judge1" "modelX" "modelY" "greetings" = none := by decide

/-- C3 (amended part): on every path other than the no-common-questions
fallback — cache hit, length heuristic, LLM judge including parse failure —
the returned battle cache maps the battle's key to the returned verdict. -/
theorem verdict_persisted_unless_no_common (pyhash : String → Int) (parse : ParseOutcome)
    (cache : List (String × String)) (j a b cat : String)
    (resA resB : List (String × String))
    (h : battleCacheGet cache j a b cat = none → (commonQuestions resA resB).isEmpty = false) :
    battleCacheGet (run_battle pyhash parse cache j a b cat resA resB).cache j a b cat =
      some (run_battle pyhash parse cache j a b cat resA resB).winner := by
  unfold run_battle
  cases hc : battleCacheGet cache j a b cat with
  | some w => exact hc
  | none =>
      have hne := h hc
      simp only [hne, Bool.false_eq_true, if_false]
      split_ifs <;> simp [battleCacheGet_set]

theorem verdict_persisted_unless_no_common_witness :
    (battleCacheGet [] "judge1" "modelX" "modelY" "greetings" = none →
      (commonQuestions [("q1", "hi")] [("q1", "yo")]).isEmpty = false) ∧
    battleCacheGet (run_battle (fun _ => 0) ParseOutcome.noJson [] "judge1" "modelX" "modelY"
        "greetings" [("q1", "hi")] [("q1", "yo")]).cache "judge1" "modelX" "modelY" "greetings" =
      some (run_battle (fun _ => 0) ParseOutcome.noJson [] "judge1" "modelX" "modelY"
        "greetings" [("q1", "hi")] [("q1", "yo")]).winner :=
  ⟨fun _ => by decide,
    verdict_persisted_unless_no_common (fun _ => 0) ParseOutcome.noJson [] "judge1" "modelX"
      "modelY" "greetings" [("q1", "hi")] [("q1", "yo")] (fun _ => by decide)⟩

/-- C9 (counterexample part): the no-common-questions fallback is a function
of the per-process Python string hash; the two hash functions model two runs
with different `PYTHONHASHSEED` values, and the same judge, pair and
category yield opposite verdicts. -/
theorem no_common_fallback_hash_dependent :
    (run_battle (fun _ => 0) ParseOutcome.noJson [] "judge1" "modelX" "modelY" "chat"
        [("q1", "hi")] [("q2", "yo")]).winner = "model_a" ∧
    (run_battle (fun _ => 1) ParseOutcome.noJson [] "judge1" "modelX" "modelY" "chat"
        [("q1", "hi")] [("q2", "yo")]).winner = "model_b" := by decide

/-- C9 (amended part): with the process hash function fixed (one run), the
no-common-questions fallback verdict depends only on the pair and the
category — the judge, the parse outcome, the cache contents and the
response sets do not influence it. -/
theorem no_common_fallback_judge_independent (pyhash : String → Int)
    (parse parse' : ParseOutcome) (cache cache' : List (String × String))
    (j j' a b cat : String) (resA resB resA' resB' : List (String × String))
    (hm : battleCacheGet cache j a b cat = none)
    (hm' : battleCacheGet cache' j' a b cat = none)
    (hq : (commonQuestions resA resB).isEmpty = true)
    (hq' : (commonQuestions resA' resB').isEmpty = true) :
    (run_battle pyhash parse cache j a b cat resA resB).winner =
      (run_battle pyhash parse' cache' j' a b cat resA' resB').winner := by
  unfold run_battle
  simp only [hm, hm', hq, hq', if_true]

theorem no_common_fallback_judge_independent_witness :
    battleCacheGet [] "judge1" "modelX" "modelY" "chat" = none ∧
    battleCacheGet [] "judge2" "modelX" "modelY" "chat" = none ∧
    (commonQuestions [("q1", "hi")] [("q2", "yo")]).isEmpty = true ∧
    (commonQuestions ([] : List (String × String)) []).isEmpty = true ∧
    (run_battle (fun _ => 7) ParseOutcome.noJson [] "judge1" "modelX" "modelY" "chat"
        [("q1", "hi")] [("q2", "yo")]).winner =
      (run_battle (fun _ => 7) ParseOutcome.parseError [] "judge2" "modelX" "modelY" "chat"
        [] []).winner :=
  ⟨by decide, by decide, by decide, by decide,
    no_common_fallback_judge_independent (fun _ => 7) ParseOutcome.noJson ParseOutcome.parseError
      [] [] "judge1" "judge2" "modelX" "modelY" "chat" [("q1", "hi")] [("q2", "yo")] [] []
      (by decide) (by decide) (by decide) (by decide)⟩

theorem toUpper_ne_B_of_whitespace {c : Char} (hc : isPyWhitespace c = true) :
    c.toUpper ≠ 'B' := by
  simp only [isPyWhitespace] at hc
  simp [Char.isWhitespace] at hc
  rcases hc with (((h | h) | h) | h) <;> subst h <;> decide

theorem mem_dropWhile_of_mem {c : Char} {l : List Char} (hc : c ∈ l)
    (hw : isPyWhitespace c = false) : c ∈ l.dropWhile isPyWhitespace := by
  rw [← List.takeWhile_append_dropWhile isPyWhitespace l] at hc
  rcases List.mem_append.mp hc with h | h
  · have hp := List.mem_takeWhile_imp h
    rw [hw] at hp
    exact absurd hp (by decide)
  · exact h

theorem mem_pyStrip_of_mem {c : Char} {l : List Char} (hc : c ∈ l)
    (hw : isPyWhitespace c = false) : c ∈ pyStripChars l := by
  unfold pyStripChars
  apply List.mem_reverse.mpr
  apply mem_dropWhile_of_mem _ hw
  apply List.mem_reverse.mpr
  exact mem_dropWhile_of_mem hc hw

theorem pyStrip_sublist (l : List Char) : List.Sublist (pyStripChars l) l := by
  unfold pyStripChars
  have h1 : List.Sublist (l.dropWhile isPyWhitespace) l := List.dropWhile_sublist _
  have h2 : List.Sublist ((l.dropWhile isPyWhitespace).reverse.dropWhile isPyWhitespace)
      (l.dropWhile isPyWhitespace).reverse := List.dropWhile_sublist _
  have h3 := h2.reverse
  rw [List.reverse_reverse] at h3
  exact h3.trans h1

theorem containsB_strip_iff (l : List Char) :
    'B' ∈ pyUpperChars (pyStripChars l) ↔ 'B' ∈ pyUpperChars l := by
  simp only [pyUpperChars]
  constructor
  · intro h
    exact ((pyStrip_sublist l).map Char.toUpper).subset h
  · intro h
    obtain ⟨c, hcl, hcu⟩ := List.mem_map.mp h
    have hw : isPyWhitespace c = false := by
      cases hwc : isPyWhitespace c
      · rfl
      · exact absurd hcu (toUpper_ne_B_of_whitespace hwc)
    exact List.mem_map.mpr ⟨c, mem_pyStrip_of_mem hcl hw, hcu⟩

/-- C7: every judge-reply parse failure — no JSON object found, unparsable
text, missing winner field, or a non-string winner field — resolves to the
fixed default verdict model A; a parsed winner string yields model B exactly
when its upper-cased form contains the letter B (the `strip()` the code also
applies never changes that outcome) and model A otherwise. -/
theorem judge_parse_contract :
    judgeVerdict ParseOutcome.noJson = "model_a" ∧
    judgeVerdict ParseOutcome.parseError = "model_a" ∧
    judgeVerdict ParseOutcome.objNoWinner = "model_a" ∧
    judgeVerdict ParseOutcome.winnerNotString = "model_a" ∧
    ∀ w : String, judgeVerdict (ParseOutcome.winnerStr w) =
      (if 'B' ∈ pyUpperChars w.data then "model_b" else "model_a") := by
  refine ⟨rfl, rfl, by decide, rfl, ?_⟩
  intro w
  simp only [judgeVerdict, winnerFromString]
  by_cases hb : 'B' ∈ pyUpperChars w.data
  · rw [if_pos ((containsB_strip_iff w.data).mpr hb), if_pos hb]
  · rw [if_neg (fun hc => hb ((containsB_strip_iff w.data).mp hc)), if_neg hb]

theorem run_battle_cache_hit_eq (pyhash : String → Int) (parse : ParseOutcome)
    (cache : List (String × String)) (j a b cat w : String)
    (resA resB : List (String × String))
    (hhit : battleCacheGet cache j a b cat = some w) :
    run_battle pyhash parse cache j a b cat resA resB = ⟨w, cache, false⟩ := by
  unfold run_battle
  simp only [hhit]

theorem run_battle_no_common_eq (pyhash : String → Int) (parse : ParseOutcome)
    (cache : List (String × String)) (j a b cat : String)
    (resA resB : List (String × String))
    (hmiss : battleCacheGet cache j a b cat = none)
    (hq : (commonQuestions resA resB).isEmpty = true) :
    run_battle pyhash parse cache j a b cat resA resB =
      ⟨noCommonWinner pyhash a b cat, cache, false⟩ := by
  unfold run_battle
  simp only [hmiss, hq, if_true]

theorem run_battle_heuristic_eq (pyhash : String → Int) (parse : ParseOutcome)
    (cache : List (String × String)) (j a b cat : String)
    (resA resB : List (String × String))
    (hmiss : battleCacheGet cache j a b cat = none)
    (hne : (commonQuestions resA resB).isEmpty = false) :
    run_battle pyhash parse cache j a b cat resA resB =
      (if 160 < avgLen resA (commonQuestions resA resB) ∧
          160 < avgLen resB (commonQuestions resA resB) then
        ⟨if avgLen resA (commonQuestions resA resB) <
              avgLen resB (commonQuestions resA resB) then "model_a" else "model_b",
          battleCacheSet cache j a b cat
            (if avgLen resA (commonQuestions resA resB) <
                avgLen resB (commonQuestions resA resB) then "model_a" else "model_b"),
          false⟩
      else if 160 < avgLen resA (commonQuestions resA resB) then
        ⟨"model_b", battleCacheSet cache j a b cat "model_b", false⟩
      else if 160 < avgLen resB (commonQuestions resA resB) then
        ⟨"model_a", battleCacheSet cache j a b cat "model_a", false⟩
      else
        ⟨judgeVerdict parse, battleCacheSet cache j a b cat (judgeVerdict parse), true⟩) := by
  unfold run_battle
  simp only [hmiss, hne, Bool.false_eq_true, if_false]

/-- C6: with a cache miss and a non-empty common-question set, the length
heuristic of `run_battle` decides as follows: if both average lengths exceed
160 the strictly shorter model wins without a judge call; if exactly one
exceeds 160 the other model wins without a judge call; if neither exceeds
160 the decision falls through to the LLM judge. -/
theorem length_heuristic_cases (pyhash : String → Int) (parse : ParseOutcome)
    (cache : List (String × String)) (j a b cat : String)
    (resA resB : List (String × String))
    (hmiss : battleCacheGet cache j a b cat = none)
    (hne : (commonQuestions resA resB).isEmpty = false) :
    ((160 < avgLen resA (commonQuestions resA resB) ∧
        160 < avgLen resB (commonQuestions resA resB) ∧
        avgLen resA (commonQuestions resA resB) < avgLen resB (commonQuestions resA resB)) →
      (run_battle pyhash parse cache j a b cat resA resB).winner = "model_a" ∧
        (run_battle pyhash parse cache j a b cat resA resB).judgeCalled = false) ∧
    ((160 < avgLen resA (commonQuestions resA resB) ∧
        160 < avgLen resB (commonQuestions resA resB) ∧
        avgLen resB (commonQuestions resA resB) < avgLen resA (commonQuestions resA resB)) →
      (run_battle pyhash parse cache j a b cat resA resB).winner = "model_b" ∧
        (run_battle pyhash parse cache j a b cat resA resB).judgeCalled = false) ∧
    ((160 < avgLen resA (commonQuestions resA resB) ∧
        avgLen resB (commonQuestions resA resB) ≤ 160) →
      (run_battle pyhash parse cache j a b cat resA resB).winner = "model_b" ∧
        (run_battle pyhash parse cache j a b cat resA resB).judgeCalled = false) ∧
    ((avgLen resA (commonQuestions resA resB) ≤ 160 ∧
        160 < avgLen resB (commonQuestions resA resB)) →
      (run_battle pyhash parse cache j a b cat resA resB).winner = "model_a" ∧
        (run_battle pyhash parse cache j a b cat resA resB).judgeCalled = false) ∧
    ((avgLen resA (commonQuestions resA resB) ≤ 160 ∧
        avgLen resB (commonQuestions resA resB) ≤ 160) →
      (run_battle pyhash parse cache j a b cat resA resB).winner = judgeVerdict parse ∧
        (run_battle pyhash parse cache j a b cat resA resB).judgeCalled = true) := by
  have heq := run_battle_heuristic_eq pyhash parse cache j a b cat resA resB hmiss hne
  refine ⟨?_, ?_, ?_, ?_, ?_⟩
  · rintro ⟨h1, h2, h3⟩
    rw [heq, if_pos ⟨h1, h2⟩]
    constructor <;> simp [h3]
  · rintro ⟨h1, h2, h3⟩
    rw [heq, if_pos ⟨h1, h2⟩]
    constructor <;> simp [not_lt.mpr h3.le]
  · rintro ⟨h1, h2⟩
    rw [heq, if_neg (fun hx => absurd hx.2 (not_lt.mpr h2)), if_pos h1]
    exact ⟨rfl, rfl⟩
  · rintro ⟨h1, h2⟩
    rw [heq, if_neg (fun hx => absurd hx.1 (not_lt.mpr h1)), if_neg (not_lt.mpr h1),
      if_pos h2]
    exact ⟨rfl, rfl⟩
  · rintro ⟨h1, h2⟩
    rw [heq, if_neg (fun hx => absurd hx.1 (not_lt.mpr h1)), if_neg (not_lt.mpr h1),
      if_neg (not_lt.mpr h2)]
    exact ⟨rfl, rfl⟩

theorem length_heuristic_cases_witness :
    battleCacheGet [] "judge1" "modelX" "modelY" "chat" = none ∧
    (commonQuestions [("q1", String.mk (List.replicate 500 'x'))]
        [("q1", String.mk (List.replicate 50 'y'))]).isEmpty = false ∧
    (160 < avgLen [("q1", String.mk (List.replicate 500 'x'))]
        (commonQuestions [("q1", String.mk (List.replicate 500 'x'))]
          [("q1", String.mk (List.replicate 50 'y'))]) ∧
      avgLen [("q1", String.mk (List.replicate 50 'y'))]
        (commonQuestions [("q1", String.mk (List.replicate 500 'x'))]
          [("q1", String.mk (List.replicate 50 'y'))]) ≤ 160) ∧
    (run_battle (fun _ => 0) ParseOutcome.noJson [] "judge1" "modelX" "modelY" "chat"
        [("q1", String.mk (List.replicate 500 'x'))]
        [("q1", String.mk (List.replicate 50 'y'))]).winner = "model_b" ∧
    (run_battle (fun _ => 0) ParseOutcome.noJson [] "judge1" "modelX" "modelY" "chat"
        [("q1", String.mk (List.replicate 500 'x'))]
        [("q1", String.mk (List.replicate 50 'y'))]).judgeCalled = false := by
  have hc : commonQuestions [("q1", String.mk (List.replicate 500 'x'))]
      [("q1", String.mk (List.replicate 50 'y'))] = ["q1"] := by decide
  have ha : avgLen [("q1", String.mk (List.replicate 500 'x'))] ["q1"] = 500 := by
    have hlen : (String.mk (List.replicate 500 'x')).length = 500 := by
      norm_num [String.length]
    norm_num [avgLen, List.lookup, hlen]
  have hb : avgLen [("q1", String.mk (List.replicate 50 'y'))] ["q1"] = 50 := by
    have hlen : (String.mk (List.replicate 50 'y')).length = 50 := by
      norm_num [String.length]
    norm_num [avgLen, List.lookup, hlen]
  have h1 : (160 : ℚ) < avgLen [("q1", String.mk (List.replicate 500 'x'))]
      (commonQuestions [("q1", String.mk (List.replicate 500 'x'))]
        [("q1", String.mk (List.replicate 50 'y'))]) := by
    rw [hc, ha]; norm_num
  have h2 : avgLen [("q1", String.mk (List.replicate 50 'y'))]
      (commonQuestions [("q1", String.mk (List.replicate 500 'x'))]
        [("q1", String.mk (List.replicate 50 'y'))]) ≤ 160 := by
    rw [hc, hb]; norm_num
  refine ⟨by decide, by decide, ⟨h1, h2⟩, ?_⟩
  exact (length_heuristic_cases (fun _ => 0) ParseOutcome.noJson [] "judge1" "modelX" "modelY"
    "chat" [("q1", String.mk (List.replicate 500 'x'))]
    [("q1", String.mk (List.replicate 50 'y'))] (by decide) (by decide)).2.2.1 ⟨h1, h2⟩

/-- C8: the load logic of both caches is all-or-nothing: if the fingerprint
stored in the persisted file differs from the fingerprint of the active
persona text (response cache) or persona-plus-rubric text (battle cache),
the in-memory cache starts empty; if the fingerprints match, every persisted
entry is loaded. -/
theorem cache_load_fingerprint {α β : Type} (fingerprint : String → String)
    (persona rubric : String) (stored : Option String)
    (entriesR : List (String × α)) (entriesB : List (String × β)) :
    (stored ≠ some (fingerprint persona) →
      responseCacheLoad fingerprint persona (some (stored, entriesR)) = []) ∧
    (stored = some (fingerprint persona) →
      responseCacheLoad fingerprint persona (some (stored, entriesR)) = entriesR) ∧
    (stored ≠ some (fingerprint (persona ++ rubric)) →
      battleCacheLoad fingerprint persona rubric (some (stored, entriesB)) = []) ∧
    (stored = some (fingerprint (persona ++ rubric)) →
      battleCacheLoad fingerprint persona rubric (some (stored, entriesB)) = entriesB) := by
  refine ⟨fun h => ?_, fun h => ?_, fun h => ?_, fun h => ?_⟩ <;>
    simp [responseCacheLoad, battleCacheLoad, cacheLoadEntries, h]

theorem cache_load_fingerprint_witness :
    (some "stale" ≠ some ((fun s : String => s) "persona")) ∧
    responseCacheLoad (fun s : String => s) "persona"
        (some (some "stale", [("k", "v")])) = [] ∧
    (some "personarubric" = some ((fun s : String => s) ("persona" ++ "rubric"))) ∧
    battleCacheLoad (fun s : String => s) "persona" "rubric"
        (some (some "personarubric", [("k", "v")])) = [("k", "v")] := by
  refine ⟨by decide, ?_, by decide, ?_⟩
  · exact (cache_load_fingerprint (fun s : String => s) "persona" "rubric" (some "stale")
      [("k", "v")] ([] : List (String × String))).1 (by decide)
  · exact (cache_load_fingerprint (fun s : String => s) "persona" "rubric"
      (some "personarubric") ([] : List (String × String)) [("k", "v")]).2.2.2 (by decide)

/-- C10: provided every stored cache value is one of the two winner labels,
every path of `run_battle` — cache hit, hash fallback, length heuristic, LLM
judge and parse-failure default — returns a verdict in the two-element set,
and the statistics aggregation credits exactly one win to one model of the
pair and exactly one loss to the other, whatever the winner label is. -/
theorem battle_verdict_two_valued (pyhash : String → Int) (parse : ParseOutcome)
    (cache : List (String × String)) (j a b cat : String)
    (resA resB : List (String × String)) (stats : String → Nat × Nat)
    (hcache : ∀ p ∈ cache, p.2 = "model_a" ∨ p.2 = "model_b") (hab : a ≠ b) :
    ((run_battle pyhash parse cache j a b cat resA resB).winner = "model_a" ∨
      (run_battle pyhash parse cache j a b cat resA resB).winner = "model_b") ∧
    (∀ winner : String,
      ((battleStatsStep stats a b winner a).1 = (stats a).1 + 1 ∧
        (battleStatsStep stats a b winner a).2 = (stats a).2 ∧
        (battleStatsStep stats a b winner b).1 = (stats b).1 ∧
        (battleStatsStep stats a b winner b).2 = (stats b).2 + 1) ∨
      ((battleStatsStep stats a b winner b).1 = (stats b).1 + 1 ∧
        (battleStatsStep stats a b winner b).2 = (stats b).2 ∧
        (battleStatsStep stats a b winner a).1 = (stats a).1 ∧
        (battleStatsStep stats a b winner a).2 = (stats a).2 + 1)) := by
  constructor
  · cases hc : battleCacheGet cache j a b cat with
    | some w =>
        rw [run_battle_cache_hit_eq pyhash parse cache j a b cat w resA resB hc]
        exact hcache _ (mem_of_lookup_eq_some hc)
    | none =>
        cases hcm : (commonQuestions resA resB).isEmpty with
        | true =>
            rw [run_battle_no_common_eq pyhash parse cache j a b cat resA resB hc hcm]
            unfold noCommonWinner
            split_ifs
            · exact Or.inl rfl
            · exact Or.inr rfl
        | false =>
            rw [run_battle_heuristic_eq pyhash parse cache j a b cat resA resB hc hcm]
            split_ifs
            · exact Or.inl rfl
            · exact Or.inr rfl
            · exact Or.inr rfl
            · exact Or.inl rfl
            · exact judgeVerdict_two_valued parse
  · intro winner
    by_cases hw : winner = "model_a"
    · left
      simp [battleStatsStep, bumpWin, bumpLoss, hw, hab, Ne.symm hab]
    · right
      simp [battleStatsStep, bumpWin, bumpLoss, hw, hab, Ne.symm hab]

theorem battle_verdict_two_valued_witness :
    (∀ p ∈ ([] : List (String × String)), p.2 = "model_a" ∨ p.2 = "model_b") ∧
    ("modelX" : String) ≠ "modelY" ∧
    ((run_battle (fun _ => 0) ParseOutcome.noJson [] "judge1" "modelX" "modelY" "chat"
        [] []).winner = "model_a" ∨
      (run_battle (fun _ => 0) ParseOutcome.noJson [] "judge1" "modelX" "modelY" "chat"
        [] []).winner = "model_b") := by
  refine ⟨fun p hp => absurd hp (List.not_mem_nil p), by decide, ?_⟩
  exact (battle_verdict_two_valued (fun _ => 0) ParseOutcome.noJson [] "judge1" "modelX"
    "modelY" "chat" [] [] (fun _ => (0, 0)) (fun p hp => absurd hp (List.not_mem_nil p))
    (by decide)).1

theorem expected_complement (ra rb : ℝ) :
    1 / (1 + (10 : ℝ) ^ ((ra - rb) / 400)) =
      1 - 1 / (1 + (10 : ℝ) ^ ((rb - ra) / 400)) := by
  have ht : (0 : ℝ) < (10 : ℝ) ^ ((rb - ra) / 400) := Real.rpow_pos_of_pos (by norm_num) _
  have hrw : (10 : ℝ) ^ ((ra - rb) / 400) = ((10 : ℝ) ^ ((rb - ra) / 400))⁻¹ := by
    rw [show (ra - rb) / 400 = -((rb - ra) / 400) by ring, Real.rpow_neg (by norm_num)]
  rw [hrw]
  set t := (10 : ℝ) ^ ((rb - ra) / 400) with htdef
  have h0 : t ≠ 0 := ne_of_gt ht
  have h1 : (0 : ℝ) < 1 + t := by linarith
  have h2 : (1 : ℝ) + t ≠ 0 := ne_of_gt h1
  have hden : (1 : ℝ) + t⁻¹ = (t + 1) / t := by
    field_simp
  rw [hden, one_div_div, eq_sub_iff_add_eq, add_comm (1 : ℝ) t, div_add_div_same,
    div_self (by linarith : t + 1 ≠ 0)]

theorem eloStep_eq_spec (r : String → ℝ) (v : Verdict)
    (hw : v.winner = "model_a" ∨ v.winner = "model_b") :
    eloStep r v = eloSpecStep r v := by
  funext k
  simp only [eloStep, eloSpecStep, updateRating]
  rw [expected_complement (r v.model_a) (r v.model_b)]
  rcases hw with h | h <;> rw [h]
  · have e1 : (("model_a" : String) = "model_a") = True := eq_true rfl
    have e2 : (("model_a" : String) = "model_b") = False := eq_false (by decide)
    simp only [e1, e2, if_true, if_false]
    split_ifs <;> ring
  · have e1 : (("model_b" : String) = "model_a") = False := eq_false (by decide)
    have e2 : (("model_b" : String) = "model_b") = True := eq_true rfl
    simp only [e1, e2, if_true, if_false]
    split_ifs <;> ring

theorem eloFold_eq_spec_from (vs : List Verdict) :
    ∀ r : String → ℝ, (∀ v ∈ vs, v.winner = "model_a" ∨ v.winner = "model_b") →
      vs.foldl eloStep r = vs.foldl eloSpecStep r := by
  induction vs with
  | nil => intro r _; rfl
  | cons v rest ih =>
      intro r hw
      simp only [List.foldl_cons]
      rw [eloStep_eq_spec r v (hw v (List.mem_cons_self v rest))]
      exact ih _ fun u hu => hw u (List.mem_cons_of_mem v hu)

theorem catStep_eq_of_category (cats : List String) (T : String → String → ℝ)
    (v : Verdict) (c : String) (hc : c ∈ cats) (hvc : v.category = c) :
    catStep cats T v c = eloStep (T c) v := by
  have hmem : v.category ∈ cats := by rw [hvc]; exact hc
  unfold catStep
  rw [if_pos hmem]
  rw [if_pos hvc.symm]

theorem catStep_eq_of_ne (cats : List String) (T : String → String → ℝ)
    (v : Verdict) (c : String) (hvc : v.category ≠ c) :
    catStep cats T v c = T c := by
  by_cases hm : v.category ∈ cats
  · unfold catStep
    rw [if_pos hm]
    rw [if_neg fun h => hvc h.symm]
  · unfold catStep
    rw [if_neg hm]

theorem catFold_filter (cats : List String) (c : String) (hc : c ∈ cats) :
    ∀ (vs : List Verdict) (T : String → String → ℝ),
      (vs.foldl (catStep cats) T) c =
        (vs.filter (fun v => v.category == c)).foldl eloStep (T c) := by
  intro vs
  induction vs with
  | nil => intro T; rfl
  | cons v rest ih =>
      intro T
      simp only [List.foldl_cons, List.filter_cons]
      by_cases hvc : v.category = c
      · rw [if_pos (by simpa using hvc)]
        simp only [List.foldl_cons]
        rw [ih, catStep_eq_of_category cats T v c hc hvc]
      · rw [if_neg (by simpa using hvc)]
        rw [ih, catStep_eq_of_ne cats T v c hvc]

/-- C4: the Elo fold of `run_benchmark` coincides with the spec's wording of
the engine: every model starts at 1000 in the global table and in each
per-category table; each verdict, in sequence order, contributes the
logistic expected score `E_a`, the complementary `E_b = 1 - E_a`, actual
scores 1.0 for the winner label's side and 0.0 for the other, and the
K = 32 update applied to the global table and to the table of the verdict's
category (whose fold equals the fold of the verdicts of that category). -/
theorem elo_engine_matches_spec (vs : List Verdict) (cats : List String) (c : String)
    (hw : ∀ v ∈ vs, v.winner = "model_a" ∨ v.winner = "model_b") (hc : c ∈ cats) :
    eloFold vs = eloSpecFold vs ∧
    catFold cats vs c = eloSpecFold (vs.filter (fun v => v.category == c)) := by
  constructor
  · exact eloFold_eq_spec_from vs _ hw
  · unfold catFold eloSpecFold
    rw [catFold_filter cats c hc vs]
    exact eloFold_eq_spec_from (vs.filter fun v => v.category == c) _
      fun v hv => hw v (List.mem_of_mem_filter hv)

theorem elo_engine_matches_spec_witness :
    (∀ v ∈ ([⟨"mA", "mB", "model_a", "greetings"⟩] : List Verdict),
      v.winner = "model_a" ∨ v.winner = "model_b") ∧
    ("greetings" : String) ∈ ["greetings"] ∧
    (eloFold [⟨"mA", "mB", "model_a", "greetings"⟩] =
        eloSpecFold [⟨"mA", "mB", "model_a", "greetings"⟩] ∧
      catFold ["greetings"] [⟨"mA", "mB", "model_a", "greetings"⟩] "greetings" =
        eloSpecFold (([⟨"mA", "mB", "model_a", "greetings"⟩] : List Verdict).filter
          fun v => v.category == "greetings")) := by
  refine ⟨?_, ?_, ?_⟩
  · intro v hv
    rw [List.mem_singleton] at hv
    subst hv
    exact Or.inl rfl
  · exact List.mem_singleton.mpr rfl
  · exact elo_engine_matches_spec [⟨"mA", "mB", "model_a", "greetings"⟩] ["greetings"]
      "greetings"
      (by intro v hv
          rw [List.mem_singleton] at hv
          subst hv
          exact Or.inl rfl)
      (List.mem_singleton.mpr rfl)

theorem eloStep_round1 :
    eloStep (fun _ => (1000 : ℝ)) ⟨"A", "B", "model_a", "g"⟩ =
      fun k => if k = "B" then 984 else if k = "A" then 1016 else 1000 := by
  funext k
  simp only [eloStep, updateRating]
  norm_num [Real.rpow_zero]

theorem eloStep_round2_at_A :
    eloStep (fun k => if k = "B" then (984 : ℝ) else if k = "A" then 1016 else 1000)
        ⟨"A", "B", "model_b", "g"⟩ "A" =
      1016 + 32 * (0 - 1 / (1 + (10 : ℝ) ^ (((984 : ℝ) - 1016) / 400))) := by
  simp only [eloStep, updateRating]
  have e1 : (("A" : String) = "B") = False := eq_false (by decide)
  have e2 : (("A" : String) = "A") = True := eq_true rfl
  have e3 : (("model_b" : String) = "model_a") = False := eq_false (by decide)
  simp only [e1, e2, e3, if_true, if_false]

theorem eloStep_round2_at_B :
    eloStep (fun k => if k = "B" then (984 : ℝ) else if k = "A" then 1016 else 1000)
        ⟨"A", "B", "model_b", "g"⟩ "B" =
      984 + 32 * (1 - 1 / (1 + (10 : ℝ) ^ (((1016 : ℝ) - 984) / 400))) := by
  simp only [eloStep, updateRating]
  have e1 : (("B" : String) = "B") = True := eq_true rfl
  have e2 : (("B" : String) = "A") = False := eq_false (by decide)
  have e3 : (("A" : String) = "B") = False := eq_false (by decide)
  have e4 : (("model_b" : String) = "model_a") = False := eq_false (by decide)
  simp only [e1, e2, e3, e4, if_true, if_false]
  norm_num

theorem eloFold_roundtrip_at_A :
    eloFold [⟨"A", "B", "model_a", "g"⟩, ⟨"A", "B", "model_b", "g"⟩] "A" =
      1016 + 32 * (0 - 1 / (1 + (10 : ℝ) ^ (((984 : ℝ) - 1016) / 400))) := by
  rw [show eloFold [⟨"A", "B", "model_a", "g"⟩, ⟨"A", "B", "model_b", "g"⟩] =
      eloStep (eloStep (fun _ => 1000) ⟨"A", "B", "model_a", "g"⟩) ⟨"A", "B", "model_b", "g"⟩
    from rfl, eloStep_round1]
  exact eloStep_round2_at_A

theorem eloFold_roundtrip_at_B :
    eloFold [⟨"A", "B", "model_a", "g"⟩, ⟨"A", "B", "model_b", "g"⟩] "B" =
      984 + 32 * (1 - 1 / (1 + (10 : ℝ) ^ (((1016 : ℝ) - 984) / 400))) := by
  rw [show eloFold [⟨"A", "B", "model_a", "g"⟩, ⟨"A", "B", "model_b", "g"⟩] =
      eloStep (eloStep (fun _ => 1000) ⟨"A", "B", "model_a", "g"⟩) ⟨"A", "B", "model_b", "g"⟩
    from rfl, eloStep_round1]
  exact eloStep_round2_at_B

/-- C1 (counterexample part): folding the two verdicts [A beats B, B beats A]
from 1000/1000 with the engine's K = 32 update does not return model A's
global rating to exactly 1000 — after A's win the ratings are 1016/984, so
the reverse verdict is applied at unequal ratings and undershoots. -/
theorem elo_round_trip_counterexample :
    eloFold [⟨"A", "B", "model_a", "g"⟩, ⟨"A", "B", "model_b", "g"⟩] "A" ≠ 1000 := by
  rw [eloFold_roundtrip_at_A]
  have ht1 : (10 : ℝ) ^ (((984 : ℝ) - 1016) / 400) < 1 :=
    Real.rpow_lt_one_of_one_lt_of_neg (by norm_num) (by norm_num)
  have ht0 : (0 : ℝ) < (10 : ℝ) ^ (((984 : ℝ) - 1016) / 400) :=
    Real.rpow_pos_of_pos (by norm_num) _
  intro heq
  set t := (10 : ℝ) ^ (((984 : ℝ) - 1016) / 400) with htdef
  have hd : (0 : ℝ) < 1 + t := by linarith
  have hu : (1 + t) * (1 / (1 + t)) = 1 := by field_simp
  have hu2 : 1 / (1 + t) = 1 / 2 := by linarith
  rw [hu2] at hu
  linarith [hu, ht1]

/-- C1 (amended part): the balanced two-verdict series leaves model A
strictly below 1000 and model B strictly above, while the two global
ratings still sum to exactly 2000 — the fold conserves rating mass but does
not return to the starting point. -/
theorem elo_round_trip_amended :
    eloFold [⟨"A", "B", "model_a", "g"⟩, ⟨"A", "B", "model_b", "g"⟩] "A" < 1000 ∧
    1000 < eloFold [⟨"A", "B", "model_a", "g"⟩, ⟨"A", "B", "model_b", "g"⟩] "B" ∧
    eloFold [⟨"A", "B", "model_a", "g"⟩, ⟨"A", "B", "model_b", "g"⟩] "A" +
      eloFold [⟨"A", "B", "model_a", "g"⟩, ⟨"A", "B", "model_b", "g"⟩] "B" = 2000 := by
  rw [eloFold_roundtrip_at_A, eloFold_roundtrip_at_B,
    expected_complement (1016 : ℝ) (984 : ℝ)]
  have ht1 : (10 : ℝ) ^ (((984 : ℝ) - 1016) / 400) < 1 :=
    Real.rpow_lt_one_of_one_lt_of_neg (by norm_num) (by norm_num)
  have ht0 : (0 : ℝ) < (10 : ℝ) ^ (((984 : ℝ) - 1016) / 400) :=
    Real.rpow_pos_of_pos (by norm_num) _
  set t := (10 : ℝ) ^ (((984 : ℝ) - 1016) / 400) with htdef
  have hd : (0 : ℝ) < 1 + t := by linarith
  have he0 : (0 : ℝ) < 1 / (1 + t) := by positivity
  have hu : (1 + t) * (1 / (1 + t)) = 1 := by field_simp
  have hmul : (1 / (1 + t)) * t < (1 / (1 + t)) * 1 := mul_lt_mul_of_pos_left ht1 he0
  refine ⟨by nlinarith [hu, hmul], by nlinarith [hu, hmul], by ring⟩
